import Mathlib

/-!
Verification of the real-time event distribution subsystem of the
`iffservices` community-platform backend.

The development shallowly embeds the Python code of
`src/services/websocket_manager.py` (the connection registry),
`src/services/redis_broker.py` (the pub/sub relay) and the gateway glue in
`src/main.py`.

Python `dict`s are modelled as association lists with first-match lookup,
insertion that replaces the old binding and deletion that removes the key;
Python `set`s are modelled as lists with add-if-absent and filter-based
discard.  WebSocket handles are modelled as `Nat`, ids as `String`.
-/

namespace IffServices

/-! ### Dictionary primitives (Python `dict`) -/

/-- `dict` lookup: first binding of the key, if any. -/
def dlookup {K V : Type} [DecidableEq K] (k : K) : List (K × V) → Option V
  | [] => none
  | (k', v) :: rest => if k' = k then some v else dlookup k rest

/-- `del d[k]`: remove every binding of `k`. -/
def derase {K V : Type} [DecidableEq K] (k : K) (m : List (K × V)) : List (K × V) :=
  m.filter (fun p => decide (p.1 ≠ k))

/-- `d[k] = v`: replace any old binding of `k` by `v`. -/
def dinsert {K V : Type} [DecidableEq K] (k : K) (v : V) (m : List (K × V)) : List (K × V) :=
  (k, v) :: derase k m

/-- `k in d`. -/
def dmem {K V : Type} [DecidableEq K] (k : K) (m : List (K × V)) : Bool :=
  (dlookup k m).isSome

/-! ### Set primitives (Python `set`) -/

/-- `s.add x`: add if absent. -/
def sadd {α : Type} [DecidableEq α] (x : α) (s : List α) : List α :=
  if x ∈ s then s else x :: s

/-- `s.discard x`: remove all occurrences. -/
def sdel {α : Type} [DecidableEq α] (x : α) (s : List α) : List α :=
  s.filter (fun y => decide (y ≠ x))

/-! ### Lemmas about the primitives -/

theorem dlookup_dinsert_self {K V : Type} [DecidableEq K] (k : K) (v : V)
    (m : List (K × V)) : dlookup k (dinsert k v m) = some v := by
  simp [dinsert, dlookup]

theorem derase_cons {K V : Type} [DecidableEq K] (k : K) (p : K × V)
    (rest : List (K × V)) :
    derase k (p :: rest) = if p.1 = k then derase k rest else p :: derase k rest := by
  by_cases h : p.1 = k <;> simp [derase, List.filter, h]

theorem dlookup_derase {K V : Type} [DecidableEq K] (k k' : K) (m : List (K × V)) :
    dlookup k' (derase k m) = if k' = k then none else dlookup k' m := by
  induction m with
  | nil => simp [derase, dlookup]
  | cons p rest ih =>
    rw [derase_cons]
    by_cases hp : p.1 = k
    · rw [if_pos hp, ih]
      by_cases hk : k' = k
      · simp [hk]
      · have hne : p.1 ≠ k' := fun h2 => hk (h2 ▸ hp ▸ rfl)
        rw [if_neg hk, if_neg hk]
        simp [dlookup, hne]
    · rw [if_neg hp]
      by_cases hpk : p.1 = k'
      · have hk : k' ≠ k := fun h2 => hp (hpk.trans h2)
        simp [dlookup, hpk, hk]
      · simp [dlookup, hpk, ih]

theorem dlookup_derase_self {K V : Type} [DecidableEq K] (k : K) (m : List (K × V)) :
    dlookup k (derase k m) = none := by
  simp [dlookup_derase]

theorem dlookup_derase_ne {K V : Type} [DecidableEq K] {k k' : K} (h : k' ≠ k)
    (m : List (K × V)) : dlookup k' (derase k m) = dlookup k' m := by
  simp [dlookup_derase, h]

theorem dlookup_dinsert_ne {K V : Type} [DecidableEq K] {k k' : K} (h : k' ≠ k)
    (v : V) (m : List (K × V)) : dlookup k' (dinsert k v m) = dlookup k' m := by
  have hk : k ≠ k' := fun h2 => h h2.symm
  simp [dinsert, dlookup, hk, dlookup_derase_ne h]

theorem dlookup_mem {K V : Type} [DecidableEq K] {k : K} {v : V} {m : List (K × V)}
    (h : dlookup k m = some v) : (k, v) ∈ m := by
  induction m with
  | nil => simp [dlookup] at h
  | cons p rest ih =>
    rcases p with ⟨a, b⟩
    by_cases hp : a = k
    · simp only [dlookup, if_pos hp] at h
      obtain rfl : b = v := by injection h
      subst hp
      exact List.mem_cons_self _ _
    · simp only [dlookup, if_neg hp] at h
      exact List.mem_cons_of_mem _ (ih h)

theorem mem_sadd {α : Type} [DecidableEq α] (x y : α) (s : List α) :
    y ∈ sadd x s ↔ y = x ∨ y ∈ s := by
  unfold sadd
  by_cases h : x ∈ s
  · simp only [if_pos h]
    constructor
    · exact Or.inr
    · rintro (rfl | hy)
      · exact h
      · exact hy
  · simp [if_neg h]

theorem mem_sdel {α : Type} [DecidableEq α] (x y : α) (s : List α) :
    y ∈ sdel x s ↔ y ∈ s ∧ y ≠ x := by
  simp [sdel, List.mem_filter]

/-! ### The connection registry (`ConnectionManager`, websocket_manager.py) -/

/-- Per-connection metadata record (`self.connection_metadata[websocket]`):
`{'user_id': ..., 'communities': set(), 'threads': set()}` (the
`connected_at` timestamp is opaque wall-clock data and is not modelled). -/
structure Meta where
  user_id : String
  communities : List String
  threads : List String
deriving DecidableEq, Repr

/-- The four maps of `ConnectionManager.__init__`. -/
structure ManagerState where
  community_connections : List (String × List Nat)
  thread_connections : List (String × List Nat)
  user_connections : List (String × Nat)
  connection_metadata : List (Nat × Meta)
deriving DecidableEq, Repr

/-- The initial, empty registry. -/
def initManager : ManagerState :=
  { community_connections := []
    thread_connections := []
    user_connections := []
    connection_metadata := [] }

/-- Does handle `w` appear in the index entry for key `k`?
(`k in idx and w in idx[k]`). -/
def memIndex (idx : List (String × List Nat)) (k : String) (w : Nat) : Bool :=
  match dlookup k idx with
  | some s => decide (w ∈ s)
  | none => false

/-- `ConnectionManager.connect`: store `user_connections[user_id] = websocket`
and fresh metadata with empty topic sets.  (The `websocket.accept()`
handshake is transport-side and not modelled.) -/
def connect (st : ManagerState) (ws : Nat) (uid : String) : ManagerState :=
  { st with
    user_connections := dinsert uid ws st.user_connections
    connection_metadata :=
      dinsert ws { user_id := uid, communities := [], threads := [] }
        st.connection_metadata }

/-- One step of `ConnectionManager.disconnect`'s per-topic cleanup:
`if key in idx: idx[key].discard(ws); if not idx[key]: del idx[key]`. -/
def removeFromIndex (idx : List (String × List Nat)) (k : String) (ws : Nat) :
    List (String × List Nat) :=
  match dlookup k idx with
  | none => idx
  | some s =>
    let s2 := sdel ws s
    if s2 = [] then derase k idx else dinsert k s2 idx

/-- `ConnectionManager.disconnect`: remove the handle from every community
and thread channel listed in its metadata, drop the identity-index entry for
its user id, and delete its metadata.  A handle without metadata is a no-op. -/
def disconnect (st : ManagerState) (ws : Nat) : ManagerState :=
  match dlookup ws st.connection_metadata with
  | none => st
  | some md =>
    { community_connections :=
        md.communities.foldl (fun idx c => removeFromIndex idx c ws)
          st.community_connections
      thread_connections :=
        md.threads.foldl (fun idx t => removeFromIndex idx t ws)
          st.thread_connections
      user_connections :=
        if dmem md.user_id st.user_connections then
          derase md.user_id st.user_connections
        else st.user_connections
      connection_metadata := derase ws st.connection_metadata }

/-- `ConnectionManager.join_community`: ensure the index entry exists, add
the handle to it, and (only if the handle is registered) record the
community in its metadata set. -/
def join_community (st : ManagerState) (ws : Nat) (c : String) : ManagerState :=
  let s := (dlookup c st.community_connections).getD []
  let idx := dinsert c (sadd ws s) st.community_connections
  let meta :=
    match dlookup ws st.connection_metadata with
    | some md =>
      dinsert ws { md with communities := sadd c md.communities }
        st.connection_metadata
    | none => st.connection_metadata
  { st with community_connections := idx, connection_metadata := meta }

/-- `ConnectionManager.leave_community`: discard the handle from the index
entry (deleting the entry when it empties) and from the metadata set. -/
def leave_community (st : ManagerState) (ws : Nat) (c : String) : ManagerState :=
  let idx := removeFromIndex st.community_connections c ws
  let meta :=
    match dlookup ws st.connection_metadata with
    | some md =>
      dinsert ws { md with communities := sdel c md.communities }
        st.connection_metadata
    | none => st.connection_metadata
  { st with community_connections := idx, connection_metadata := meta }

/-- `ConnectionManager.join_thread` (mirror of `join_community`). -/
def join_thread (st : ManagerState) (ws : Nat) (t : String) : ManagerState :=
  let s := (dlookup t st.thread_connections).getD []
  let idx := dinsert t (sadd ws s) st.thread_connections
  let meta :=
    match dlookup ws st.connection_metadata with
    | some md =>
      dinsert ws { md with threads := sadd t md.threads } st.connection_metadata
    | none => st.connection_metadata
  { st with thread_connections := idx, connection_metadata := meta }

/-- `ConnectionManager.leave_thread` (mirror of `leave_community`). -/
def leave_thread (st : ManagerState) (ws : Nat) (t : String) : ManagerState :=
  let idx := removeFromIndex st.thread_connections t ws
  let meta :=
    match dlookup ws st.connection_metadata with
    | some md =>
      dinsert ws { md with threads := sdel t md.threads } st.connection_metadata
    | none => st.connection_metadata
  { st with thread_connections := idx, connection_metadata := meta }

/-! ### Sending and broadcasting

`websocket.send_text` is transport I/O; whether the send to a handle raises
is modelled by a `fail : Nat → Bool` environment.  A broadcast iterates over
a snapshot (`.copy()`) of the recipient set, collects the handles whose send
raised into `disconnected`, and only after the pass folds `disconnect` over
them. -/

/-- Result of `send_personal_message`: the new registry state, the handles
the message was delivered to, and the Python return value.  The Python
function has no `return` statement, so the returned value is `None`
(modelled as `none`; a spec-compliant boolean result would be `some b`). -/
structure SendResult where
  state : ManagerState
  delivered : List Nat
  ret : Option Bool
deriving DecidableEq, Repr

/-- `ConnectionManager.send_personal_message`: look the user up in
`user_connections`; if present try to send, disconnecting the handle when
the send raises.  Every path returns `None`. -/
def send_personal_message (st : ManagerState) (uid : String) (fail : Nat → Bool) :
    SendResult :=
  match dlookup uid st.user_connections with
  | none => ⟨st, [], none⟩
  | some ws =>
    if fail ws then ⟨disconnect st ws, [], none⟩ else ⟨st, [ws], none⟩

/-- The fan-out pass of a broadcast: walk the snapshot in order, appending
each handle to `delivered` when its send succeeds and to `disconnected`
when it raises.  Returns `(delivered, disconnected)`. -/
def fanout (fail : Nat → Bool) : List Nat → List Nat × List Nat
  | [] => ([], [])
  | w :: rest =>
    let p := fanout fail rest
    if fail w then (p.1, w :: p.2) else (w :: p.1, p.2)

/-- `ConnectionManager.broadcast_to_community`: if the community has an
index entry, fan out over a snapshot of it, then disconnect the collected
failures.  Returns the new state and the delivered handles. -/
def broadcast_to_community (st : ManagerState) (c : String) (fail : Nat → Bool) :
    ManagerState × List Nat :=
  match dlookup c st.community_connections with
  | none => (st, [])
  | some conns =>
    let p := fanout fail conns
    (p.2.foldl disconnect st, p.1)

/-- `ConnectionManager.broadcast_to_thread` (mirror over the thread index). -/
def broadcast_to_thread (st : ManagerState) (t : String) (fail : Nat → Bool) :
    ManagerState × List Nat :=
  match dlookup t st.thread_connections with
  | none => (st, [])
  | some conns =>
    let p := fanout fail conns
    (p.2.foldl disconnect st, p.1)

/-- `ConnectionManager.broadcast_to_all`: fan out over
`list(self.connection_metadata.keys())`, then disconnect the failures. -/
def broadcast_to_all (st : ManagerState) (fail : Nat → Bool) :
    ManagerState × List Nat :=
  let p := fanout fail (st.connection_metadata.map Prod.fst)
  (p.2.foldl disconnect st, p.1)

/-! ### The gateway message handler (`handle_websocket_message`) -/

/-- A decoded inbound control message: the optional fields read with
`message.get(...)`. -/
structure WsMessage where
  action : Option String
  community_id : Option String
  thread_id : Option String
  user_id : Option String
deriving DecidableEq, Repr

/-- An outbound JSON frame produced by the gateway. -/
inductive Frame
  | typing (thread_id user_id timestamp : String)
  | stop_typing (thread_id user_id timestamp : String)
  | errorReply (message : String)
deriving DecidableEq, Repr

/-- Python truthiness of an optional string (`if community_id:`):
`None` and the empty string are falsy. -/
def truthy : Option String → Bool
  | none => false
  | some s => decide (s ≠ "")

/-- `handle_websocket_message`: dispatch on the `action` field.  Join/leave
actions mutate the registry when their id field is truthy; `typing` and
`stop_typing` broadcast an ephemeral frame stamped with the server clock
`now` to the thread topic.  Any other action (or a falsy id field) falls
through the `if/elif` chain and does nothing.  The `except` branch that
sends a `Failed to process message` error frame is reachable only when a
handler raises, which none of the pure registry operations do.  Returns the
new state and the frames sent, as (handle, frame) pairs. -/
def handle_websocket_message (st : ManagerState) (ws : Nat) (msg : WsMessage)
    (now : String) (fail : Nat → Bool) : ManagerState × List (Nat × Frame) :=
  if msg.action = some "join_community" then
    if truthy msg.community_id then
      (join_community st ws (msg.community_id.getD ""), [])
    else (st, [])
  else if msg.action = some "leave_community" then
    if truthy msg.community_id then
      (leave_community st ws (msg.community_id.getD ""), [])
    else (st, [])
  else if msg.action = some "join_thread" then
    if truthy msg.thread_id then
      (join_thread st ws (msg.thread_id.getD ""), [])
    else (st, [])
  else if msg.action = some "leave_thread" then
    if truthy msg.thread_id then
      (leave_thread st ws (msg.thread_id.getD ""), [])
    else (st, [])
  else if msg.action = some "typing" then
    if truthy msg.thread_id && truthy msg.user_id then
      let t := msg.thread_id.getD ""
      let p := broadcast_to_thread st t fail
      (p.1, p.2.map fun w => (w, Frame.typing t (msg.user_id.getD "") now))
    else (st, [])
  else if msg.action = some "stop_typing" then
    if truthy msg.thread_id && truthy msg.user_id then
      let t := msg.thread_id.getD ""
      let p := broadcast_to_thread st t fail
      (p.1, p.2.map fun w => (w, Frame.stop_typing t (msg.user_id.getD "") now))
    else (st, [])
  else (st, [])

/-- One raw frame received by `websocket_route_old`'s read loop: either it
parses as JSON or it does not. -/
inductive Inbound
  | badJson
  | parsed (m : WsMessage)
deriving DecidableEq, Repr

/-- One iteration of the read loop of `websocket_route_old` (main.py): bad
JSON gets an `Invalid JSON format` error frame on the same connection;
parsed messages go to `handle_websocket_message`.  (The route's second
`except` arm, sending `Failed to process message`, fires only when the
handler raises.) -/
def route_message (st : ManagerState) (ws : Nat) (inbound : Inbound)
    (now : String) (fail : Nat → Bool) : ManagerState × List (Nat × Frame) :=
  match inbound with
  | .badJson => (st, [(ws, Frame.errorReply "Invalid JSON format")])
  | .parsed m => handle_websocket_message st ws m now fail

/-! ### The event relay (`RedisBroker`, redis_broker.py) -/

/-- `RedisBroker.subscribe` stores `self.subscribers[channel] = callback`
(callbacks are identified by a `Nat`); the transport side issues a Redis
`SUBSCRIBE` on the literal channel string. -/
def subscribe (subs : List (String × Nat)) (channel : String) (cb : Nat) :
    List (String × Nat) :=
  dinsert channel cb subs

/-- One item produced by `pubsub.listen()`: either a pubsub message (with
its `type`, `channel` and `data` fields, and whether the subscriber
callback raises on it) or the transport raising out of the iteration. -/
inductive StreamItem
  | message (mtype channel data : String) (callbackRaises : Bool)
  | transportError
deriving DecidableEq, Repr

/-- `RedisBroker.listen`: iterate the pubsub stream; for each item of type
`'message'` look the channel up in `subscribers` by exact string match and,
when found, invoke the callback (a raising callback is caught by the inner
`except` and the loop continues).  A transport error is caught by the outer
`except`, logged, and the function returns - nothing after it is processed.
Returns the list of callback invocations `(callback, channel, data)` in
order, and whether the loop was terminated by a transport error. -/
def listenLoop (subs : List (String × Nat)) :
    List StreamItem → List (Nat × String × String) × Bool
  | [] => ([], false)
  | .transportError :: _ => ([], true)
  | .message mtype channel data _ :: rest =>
    let r := listenLoop subs rest
    if mtype = "message" then
      match dlookup channel subs with
      | some cb => ((cb, channel, data) :: r.1, r.2)
      | none => r
    else r

/-- The subscriptions installed by `listen_to_redis` (main.py): the single
handler `redis_message_handler` (callback id `0`) under the three literal
channel strings. -/
def gatewaySubs : List (String × Nat) :=
  subscribe (subscribe (subscribe [] "community:*" 0) "thread:*" 0) "global:*" 0

/-- `listen_to_redis` (main.py): connect, install `gatewaySubs`, then run
the listen loop once; when `listen` returns or raises, the function only
logs and returns - it is never restarted. -/
def listen_to_redis (stream : List StreamItem) :
    List (Nat × String × String) × Bool :=
  listenLoop gatewaySubs stream

/-! ### Operation sequences over the registry -/

/-- The registry-mutating operations reachable from the gateway. -/
inductive Op
  | connect (ws : Nat) (uid : String)
  | join_community (ws : Nat) (c : String)
  | leave_community (ws : Nat) (c : String)
  | join_thread (ws : Nat) (t : String)
  | leave_thread (ws : Nat) (t : String)
  | disconnect (ws : Nat)
deriving DecidableEq, Repr

/-- Apply one operation. -/
def applyOp (st : ManagerState) : Op → ManagerState
  | .connect ws uid => connect st ws uid
  | .join_community ws c => join_community st ws c
  | .leave_community ws c => leave_community st ws c
  | .join_thread ws t => join_thread st ws t
  | .leave_thread ws t => leave_thread st ws t
  | .disconnect ws => disconnect st ws

/-- Run a sequence of operations from the empty registry. -/
def runOps (ops : List Op) : ManagerState :=
  ops.foldl applyOp initManager

/-- Precondition under which an operation is well-formed: `connect` only on
a handle with no tracking state, joins only on a registered handle; leaves
and `disconnect` are unrestricted. -/
def okOp (st : ManagerState) : Op → Bool
  | .connect ws _ => !(dmem ws st.connection_metadata)
  | .join_community ws _ => dmem ws st.connection_metadata
  | .join_thread ws _ => dmem ws st.connection_metadata
  | _ => true

/-- A sequence is well-formed from `st` when every operation satisfies its
precondition in the state it runs in. -/
def okRun (st : ManagerState) : List Op → Bool
  | [] => true
  | op :: rest => okOp st op && okRun (applyOp st op) rest

/-! ### The topic-index / membership-set agreement invariant -/

/-- Community half of the invariant: a handle is in the community index
entry for `c` iff `c` is in its metadata `communities` set. -/
def communityAgree (st : ManagerState) : Prop :=
  ∀ c w, memIndex st.community_connections c w = true ↔
    ∃ md, dlookup w st.connection_metadata = some md ∧ c ∈ md.communities

/-- Thread half of the invariant. -/
def threadAgree (st : ManagerState) : Prop :=
  ∀ t w, memIndex st.thread_connections t w = true ↔
    ∃ md, dlookup w st.connection_metadata = some md ∧ t ∈ md.threads

/-- The full topic-index/membership-set agreement invariant. -/
def topicAgree (st : ManagerState) : Prop :=
  communityAgree st ∧ threadAgree st

/-- Executable form of `topicAgree`, traversing the finite maps. -/
def topicAgreeB (st : ManagerState) : Bool :=
  (st.community_connections.all fun p => p.2.all fun w =>
    match dlookup w st.connection_metadata with
    | some md => decide (p.1 ∈ md.communities)
    | none => false) &&
  (st.thread_connections.all fun p => p.2.all fun w =>
    match dlookup w st.connection_metadata with
    | some md => decide (p.1 ∈ md.threads)
    | none => false) &&
  (st.connection_metadata.all fun q =>
    q.2.communities.all (fun c => memIndex st.community_connections c q.1) &&
    q.2.threads.all (fun t => memIndex st.thread_connections t q.1))

theorem memIndex_iff (idx : List (String × List Nat)) (k : String) (w : Nat) :
    memIndex idx k w = true ↔ ∃ s, dlookup k idx = some s ∧ w ∈ s := by
  unfold memIndex
  cases h : dlookup k idx with
  | none => simp
  | some s => simp [h]

/-- `topicAgreeB` implies the propositional invariant. -/
theorem topicAgree_of_topicAgreeB {st : ManagerState}
    (h : topicAgreeB st = true) : topicAgree st := by
  unfold topicAgreeB at h
  rw [Bool.and_assoc] at h
  have h1 := (Bool.and_eq_true _ _).mp h
  have hc := h1.1
  have ht := ((Bool.and_eq_true _ _).mp h1.2).1
  have hm := ((Bool.and_eq_true _ _).mp h1.2).2
  rw [List.all_eq_true] at hc ht hm
  constructor
  · intro c w
    constructor
    · intro hmem
      obtain ⟨s, hs, hws⟩ := (memIndex_iff _ _ _).mp hmem
      have := hc (c, s) (dlookup_mem hs)
      rw [List.all_eq_true] at this
      have := this w hws
      cases hl : dlookup w st.connection_metadata with
      | none => simp [hl] at this
      | some md =>
        rw [hl] at this
        simp only [decide_eq_true_eq] at this
        exact ⟨md, rfl, this⟩
    · rintro ⟨md, hmd, hcm⟩
      have := hm (w, md) (dlookup_mem hmd)
      have h2 := (Bool.and_eq_true _ _).mp this
      rw [List.all_eq_true] at h2
      exact h2.1 c hcm
  · intro t w
    constructor
    · intro hmem
      obtain ⟨s, hs, hws⟩ := (memIndex_iff _ _ _).mp hmem
      have := ht (t, s) (dlookup_mem hs)
      rw [List.all_eq_true] at this
      have := this w hws
      cases hl : dlookup w st.connection_metadata with
      | none => simp [hl] at this
      | some md =>
        rw [hl] at this
        simp only [decide_eq_true_eq] at this
        exact ⟨md, rfl, this⟩
    · rintro ⟨md, hmd, htm⟩
      have := hm (w, md) (dlookup_mem hmd)
      have h2 := ((Bool.and_eq_true _ _).mp this).2
      rw [List.all_eq_true] at h2
      exact h2 t htm

/-! ### How the index operations act on `memIndex` -/

theorem memIndex_dinsert_self (idx : List (String × List Nat)) (k : String)
    (s : List Nat) (w : Nat) :
    memIndex (dinsert k s idx) k w = true ↔ w ∈ s := by
  simp [memIndex, dlookup_dinsert_self]

theorem memIndex_dinsert_ne (idx : List (String × List Nat)) {k k' : String}
    (h : k' ≠ k) (s : List Nat) (w : Nat) :
    memIndex (dinsert k s idx) k' w = memIndex idx k' w := by
  simp [memIndex, dlookup_dinsert_ne h]

theorem memIndex_removeFromIndex (idx : List (String × List Nat))
    (k0 k : String) (ws w : Nat) :
    memIndex (removeFromIndex idx k0 ws) k w = true ↔
      (memIndex idx k w = true ∧ (k ≠ k0 ∨ w ≠ ws)) := by
  unfold removeFromIndex
  cases h0 : dlookup k0 idx with
  | none =>
    by_cases hk : k = k0
    · subst hk
      simp [memIndex, h0]
    · simp [hk]
  | some s =>
    simp only
    by_cases he : sdel ws s = []
    · rw [if_pos he]
      by_cases hk : k = k0
      · subst hk
        have hws : ∀ w', w' ∈ s → w' = ws := by
          intro w' hw'
          by_contra hne
          have : w' ∈ sdel ws s := (mem_sdel _ _ _).mpr ⟨hw', hne⟩
          rw [he] at this
          simp at this
        constructor
        · intro hmem
          simp [memIndex, dlookup_derase_self] at hmem
        · rintro ⟨hmem, hor⟩
          obtain ⟨s', hs', hw⟩ := (memIndex_iff _ _ _).mp hmem
          rw [h0] at hs'
          obtain rfl : s = s' := by injection hs'
          have := hws w hw
          rcases hor with h | h
          · exact absurd rfl h
          · exact absurd this h
      · rw [memIndex, dlookup_derase_ne hk]
        simp [hk, memIndex]
    · rw [if_neg he]
      by_cases hk : k = k0
      · subst hk
        rw [memIndex_dinsert_self, mem_sdel]
        constructor
        · rintro ⟨hw, hne⟩
          exact ⟨(memIndex_iff _ _ _).mpr ⟨s, h0, hw⟩, Or.inr hne⟩
        · rintro ⟨hmem, hor⟩
          obtain ⟨s', hs', hw⟩ := (memIndex_iff _ _ _).mp hmem
          rw [h0] at hs'
          obtain rfl : s = s' := by injection hs'
          rcases hor with h | h
          · exact absurd rfl h
          · exact ⟨hw, h⟩
      · rw [memIndex_dinsert_ne _ hk]
        simp [hk]

theorem memIndex_foldRemove (L : List String) (idx : List (String × List Nat))
    (ws w : Nat) (k : String) :
    memIndex (L.foldl (fun i c => removeFromIndex i c ws) idx) k w = true ↔
      (memIndex idx k w = true ∧ (k ∉ L ∨ w ≠ ws)) := by
  induction L generalizing idx with
  | nil => simp
  | cons c0 L ih =>
    rw [List.foldl_cons, ih, memIndex_removeFromIndex]
    constructor
    · rintro ⟨⟨hmem, hor1⟩, hor2⟩
      refine ⟨hmem, ?_⟩
      rcases hor1 with h1 | h1
      · rcases hor2 with h2 | h2
        · exact Or.inl (by simp [h1, h2])
        · exact Or.inr h2
      · exact Or.inr h1
    · rintro ⟨hmem, hor⟩
      rcases hor with h | h
      · simp only [List.mem_cons, not_or] at h
        exact ⟨⟨hmem, Or.inl h.1⟩, Or.inl h.2⟩
      · exact ⟨⟨hmem, Or.inr h⟩, Or.inr h⟩

/-- The join operation's effect on the community index. -/
theorem memIndex_join (idx : List (String × List Nat)) (k0 k : String)
    (ws w : Nat) :
    memIndex (dinsert k0 (sadd ws ((dlookup k0 idx).getD [])) idx) k w = true ↔
      ((k = k0 ∧ w = ws) ∨ memIndex idx k w = true) := by
  by_cases hk : k = k0
  · subst hk
    rw [memIndex_dinsert_self, mem_sadd]
    cases h0 : dlookup k idx with
    | none =>
      simp [memIndex, h0]
    | some s =>
      simp [memIndex, h0]
  · rw [memIndex_dinsert_ne _ hk]
    simp [hk]

/-! ### Preservation of the agreement invariant -/

theorem communityAgree_connect {st : ManagerState} (h : communityAgree st)
    {ws : Nat} (hws : dlookup ws st.connection_metadata = none) (uid : String) :
    communityAgree (connect st ws uid) := by
  intro c w
  simp only [connect]
  by_cases hw : w = ws
  · subst hw
    rw [dlookup_dinsert_self]
    constructor
    · intro hmem
      obtain ⟨md, hmd, _⟩ := (h c w).mp hmem
      rw [hws] at hmd
      cases hmd
    · rintro ⟨md, hmd, hcm⟩
      have hX : ({ user_id := uid, communities := [], threads := [] } : Meta) = md := by
        injection hmd
      subst hX
      simp at hcm
  · rw [dlookup_dinsert_ne hw]
    exact h c w

theorem threadAgree_connect {st : ManagerState} (h : threadAgree st)
    {ws : Nat} (hws : dlookup ws st.connection_metadata = none) (uid : String) :
    threadAgree (connect st ws uid) := by
  intro t w
  simp only [connect]
  by_cases hw : w = ws
  · subst hw
    rw [dlookup_dinsert_self]
    constructor
    · intro hmem
      obtain ⟨md, hmd, _⟩ := (h t w).mp hmem
      rw [hws] at hmd
      cases hmd
    · rintro ⟨md, hmd, htm⟩
      have hX : ({ user_id := uid, communities := [], threads := [] } : Meta) = md := by
        injection hmd
      subst hX
      simp at htm
  · rw [dlookup_dinsert_ne hw]
    exact h t w

theorem communityAgree_join_community {st : ManagerState} (h : communityAgree st)
    {ws : Nat} {md0 : Meta} (hws : dlookup ws st.connection_metadata = some md0)
    (c0 : String) : communityAgree (join_community st ws c0) := by
  intro c w
  simp only [join_community, hws]
  rw [memIndex_join]
  by_cases hw : w = ws
  · subst hw
    constructor
    · rintro (⟨rfl, _⟩ | hmem)
      · rw [dlookup_dinsert_self]
        exact ⟨_, rfl, (mem_sadd _ _ _).mpr (Or.inl rfl)⟩
      · obtain ⟨md, hmd, hcm⟩ := (h c w).mp hmem
        rw [hws] at hmd
        have hX : md0 = md := by injection hmd
        subst hX
        rw [dlookup_dinsert_self]
        exact ⟨_, rfl, (mem_sadd _ _ _).mpr (Or.inr hcm)⟩
    · rintro ⟨md, hmd, hcm⟩
      rw [dlookup_dinsert_self] at hmd
      have hX : ({ md0 with communities := sadd c0 md0.communities } : Meta) = md := by
        injection hmd
      subst hX
      rcases (mem_sadd _ _ _).mp hcm with rfl | hc
      · exact Or.inl ⟨rfl, rfl⟩
      · exact Or.inr ((h c w).mpr ⟨md0, hws, hc⟩)
  · constructor
    · rintro (⟨rfl, rfl⟩ | hmem)
      · exact absurd rfl hw
      · rw [dlookup_dinsert_ne hw]
        exact (h c w).mp hmem
    · intro hx
      rw [dlookup_dinsert_ne hw] at hx
      exact Or.inr ((h c w).mpr hx)

theorem threadAgree_join_community {st : ManagerState} (h : threadAgree st)
    (ws : Nat) (c0 : String) : threadAgree (join_community st ws c0) := by
  intro t w
  cases hws : dlookup ws st.connection_metadata with
  | none => simpa only [join_community, hws] using h t w
  | some md0 =>
    simp only [join_community, hws]
    by_cases hw : w = ws
    · subst hw
      rw [dlookup_dinsert_self]
      constructor
      · intro hmem
        obtain ⟨md, hmd, htm⟩ := (h t w).mp hmem
        rw [hws] at hmd
        have hX : md0 = md := by injection hmd
        subst hX
        exact ⟨_, rfl, htm⟩
      · rintro ⟨md, hmd, htm⟩
        have hX : ({ md0 with communities := sadd c0 md0.communities } : Meta) = md := by
          injection hmd
        subst hX
        exact (h t w).mpr ⟨md0, hws, htm⟩
    · rw [dlookup_dinsert_ne hw]
      exact h t w

theorem communityAgree_leave_community {st : ManagerState} (h : communityAgree st)
    (ws : Nat) (c0 : String) : communityAgree (leave_community st ws c0) := by
  intro c w
  cases hws : dlookup ws st.connection_metadata with
  | none =>
    simp only [leave_community, hws]
    rw [memIndex_removeFromIndex]
    constructor
    · rintro ⟨hmem, _⟩
      exact (h c w).mp hmem
    · intro hx
      refine ⟨(h c w).mpr hx, Or.inr ?_⟩
      intro hww
      subst hww
      obtain ⟨md, hmd, _⟩ := hx
      rw [hws] at hmd
      cases hmd
  | some md0 =>
    simp only [leave_community, hws]
    rw [memIndex_removeFromIndex]
    by_cases hw : w = ws
    · subst hw
      rw [dlookup_dinsert_self]
      constructor
      · rintro ⟨hmem, hor⟩
        obtain ⟨md, hmd, hcm⟩ := (h c w).mp hmem
        rw [hws] at hmd
        have hX : md0 = md := by injection hmd
        subst hX
        refine ⟨_, rfl, (mem_sdel _ _ _).mpr ⟨hcm, ?_⟩⟩
        rcases hor with h1 | h1
        · exact h1
        · exact absurd rfl h1
      · rintro ⟨md, hmd, hcm⟩
        have hX : ({ md0 with communities := sdel c0 md0.communities } : Meta) = md := by
          injection hmd
        subst hX
        have h2 := (mem_sdel _ _ _).mp hcm
        exact ⟨(h c w).mpr ⟨md0, hws, h2.1⟩, Or.inl h2.2⟩
    · rw [dlookup_dinsert_ne hw]
      constructor
      · rintro ⟨hmem, _⟩
        exact (h c w).mp hmem
      · intro hx
        exact ⟨(h c w).mpr hx, Or.inr hw⟩

theorem threadAgree_leave_community {st : ManagerState} (h : threadAgree st)
    (ws : Nat) (c0 : String) : threadAgree (leave_community st ws c0) := by
  intro t w
  cases hws : dlookup ws st.connection_metadata with
  | none => simpa only [leave_community, hws] using h t w
  | some md0 =>
    simp only [leave_community, hws]
    by_cases hw : w = ws
    · subst hw
      rw [dlookup_dinsert_self]
      constructor
      · intro hmem
        obtain ⟨md, hmd, htm⟩ := (h t w).mp hmem
        rw [hws] at hmd
        have hX : md0 = md := by injection hmd
        subst hX
        exact ⟨_, rfl, htm⟩
      · rintro ⟨md, hmd, htm⟩
        have hX : ({ md0 with communities := sdel c0 md0.communities } : Meta) = md := by
          injection hmd
        subst hX
        exact (h t w).mpr ⟨md0, hws, htm⟩
    · rw [dlookup_dinsert_ne hw]
      exact h t w

theorem threadAgree_join_thread {st : ManagerState} (h : threadAgree st)
    {ws : Nat} {md0 : Meta} (hws : dlookup ws st.connection_metadata = some md0)
    (t0 : String) : threadAgree (join_thread st ws t0) := by
  intro t w
  simp only [join_thread, hws]
  rw [memIndex_join]
  by_cases hw : w = ws
  · subst hw
    constructor
    · rintro (⟨rfl, _⟩ | hmem)
      · rw [dlookup_dinsert_self]
        exact ⟨_, rfl, (mem_sadd _ _ _).mpr (Or.inl rfl)⟩
      · obtain ⟨md, hmd, htm⟩ := (h t w).mp hmem
        rw [hws] at hmd
        have hX : md0 = md := by injection hmd
        subst hX
        rw [dlookup_dinsert_self]
        exact ⟨_, rfl, (mem_sadd _ _ _).mpr (Or.inr htm)⟩
    · rintro ⟨md, hmd, htm⟩
      rw [dlookup_dinsert_self] at hmd
      have hX : ({ md0 with threads := sadd t0 md0.threads } : Meta) = md := by
        injection hmd
      subst hX
      rcases (mem_sadd _ _ _).mp htm with rfl | ht
      · exact Or.inl ⟨rfl, rfl⟩
      · exact Or.inr ((h t w).mpr ⟨md0, hws, ht⟩)
  · constructor
    · rintro (⟨rfl, rfl⟩ | hmem)
      · exact absurd rfl hw
      · rw [dlookup_dinsert_ne hw]
        exact (h t w).mp hmem
    · intro hx
      rw [dlookup_dinsert_ne hw] at hx
      exact Or.inr ((h t w).mpr hx)

theorem communityAgree_join_thread {st : ManagerState} (h : communityAgree st)
    (ws : Nat) (t0 : String) : communityAgree (join_thread st ws t0) := by
  intro c w
  cases hws : dlookup ws st.connection_metadata with
  | none => simpa only [join_thread, hws] using h c w
  | some md0 =>
    simp only [join_thread, hws]
    by_cases hw : w = ws
    · subst hw
      rw [dlookup_dinsert_self]
      constructor
      · intro hmem
        obtain ⟨md, hmd, hcm⟩ := (h c w).mp hmem
        rw [hws] at hmd
        have hX : md0 = md := by injection hmd
        subst hX
        exact ⟨_, rfl, hcm⟩
      · rintro ⟨md, hmd, hcm⟩
        have hX : ({ md0 with threads := sadd t0 md0.threads } : Meta) = md := by
          injection hmd
        subst hX
        exact (h c w).mpr ⟨md0, hws, hcm⟩
    · rw [dlookup_dinsert_ne hw]
      exact h c w

theorem threadAgree_leave_thread {st : ManagerState} (h : threadAgree st)
    (ws : Nat) (t0 : String) : threadAgree (leave_thread st ws t0) := by
  intro t w
  cases hws : dlookup ws st.connection_metadata with
  | none =>
    simp only [leave_thread, hws]
    rw [memIndex_removeFromIndex]
    constructor
    · rintro ⟨hmem, _⟩
      exact (h t w).mp hmem
    · intro hx
      refine ⟨(h t w).mpr hx, Or.inr ?_⟩
      intro hww
      subst hww
      obtain ⟨md, hmd, _⟩ := hx
      rw [hws] at hmd
      cases hmd
  | some md0 =>
    simp only [leave_thread, hws]
    rw [memIndex_removeFromIndex]
    by_cases hw : w = ws
    · subst hw
      rw [dlookup_dinsert_self]
      constructor
      · rintro ⟨hmem, hor⟩
        obtain ⟨md, hmd, htm⟩ := (h t w).mp hmem
        rw [hws] at hmd
        have hX : md0 = md := by injection hmd
        subst hX
        refine ⟨_, rfl, (mem_sdel _ _ _).mpr ⟨htm, ?_⟩⟩
        rcases hor with h1 | h1
        · exact h1
        · exact absurd rfl h1
      · rintro ⟨md, hmd, htm⟩
        have hX : ({ md0 with threads := sdel t0 md0.threads } : Meta) = md := by
          injection hmd
        subst hX
        have h2 := (mem_sdel _ _ _).mp htm
        exact ⟨(h t w).mpr ⟨md0, hws, h2.1⟩, Or.inl h2.2⟩
    · rw [dlookup_dinsert_ne hw]
      constructor
      · rintro ⟨hmem, _⟩
        exact (h t w).mp hmem
      · intro hx
        exact ⟨(h t w).mpr hx, Or.inr hw⟩

theorem communityAgree_leave_thread {st : ManagerState} (h : communityAgree st)
    (ws : Nat) (t0 : String) : communityAgree (leave_thread st ws t0) := by
  intro c w
  cases hws : dlookup ws st.connection_metadata with
  | none => simpa only [leave_thread, hws] using h c w
  | some md0 =>
    simp only [leave_thread, hws]
    by_cases hw : w = ws
    · subst hw
      rw [dlookup_dinsert_self]
      constructor
      · intro hmem
        obtain ⟨md, hmd, hcm⟩ := (h c w).mp hmem
        rw [hws] at hmd
        have hX : md0 = md := by injection hmd
        subst hX
        exact ⟨_, rfl, hcm⟩
      · rintro ⟨md, hmd, hcm⟩
        have hX : ({ md0 with threads := sdel t0 md0.threads } : Meta) = md := by
          injection hmd
        subst hX
        exact (h c w).mpr ⟨md0, hws, hcm⟩
    · rw [dlookup_dinsert_ne hw]
      exact h c w

theorem communityAgree_disconnect {st : ManagerState} (h : communityAgree st)
    (ws : Nat) : communityAgree (disconnect st ws) := by
  intro c w
  cases hws : dlookup ws st.connection_metadata with
  | none => simpa only [disconnect, hws] using h c w
  | some md0 =>
    simp only [disconnect, hws]
    rw [memIndex_foldRemove]
    by_cases hw : w = ws
    · subst hw
      rw [dlookup_derase_self]
      constructor
      · rintro ⟨hmem, hor⟩
        obtain ⟨md, hmd, hcm⟩ := (h c w).mp hmem
        rw [hws] at hmd
        have hX : md0 = md := by injection hmd
        subst hX
        rcases hor with h1 | h1
        · exact absurd hcm h1
        · exact absurd rfl h1
      · rintro ⟨md, hmd, _⟩
        cases hmd
    · rw [dlookup_derase_ne hw]
      constructor
      · rintro ⟨hmem, _⟩
        exact (h c w).mp hmem
      · intro hx
        exact ⟨(h c w).mpr hx, Or.inr hw⟩

theorem threadAgree_disconnect {st : ManagerState} (h : threadAgree st)
    (ws : Nat) : threadAgree (disconnect st ws) := by
  intro t w
  cases hws : dlookup ws st.connection_metadata with
  | none => simpa only [disconnect, hws] using h t w
  | some md0 =>
    simp only [disconnect, hws]
    rw [memIndex_foldRemove]
    by_cases hw : w = ws
    · subst hw
      rw [dlookup_derase_self]
      constructor
      · rintro ⟨hmem, hor⟩
        obtain ⟨md, hmd, htm⟩ := (h t w).mp hmem
        rw [hws] at hmd
        have hX : md0 = md := by injection hmd
        subst hX
        rcases hor with h1 | h1
        · exact absurd htm h1
        · exact absurd rfl h1
      · rintro ⟨md, hmd, _⟩
        cases hmd
    · rw [dlookup_derase_ne hw]
      constructor
      · rintro ⟨hmem, _⟩
        exact (h t w).mp hmem
      · intro hx
        exact ⟨(h t w).mpr hx, Or.inr hw⟩

/-- One well-formed operation preserves the agreement invariant. -/
theorem topicAgree_applyOp {st : ManagerState} {op : Op} (h : topicAgree st)
    (hok : okOp st op = true) : topicAgree (applyOp st op) := by
  cases op with
  | connect ws uid =>
    have hnone : dlookup ws st.connection_metadata = none := by
      simp only [okOp, dmem, Bool.not_eq_true'] at hok
      exact Option.not_isSome_iff_eq_none.mp (by simp [hok])
    exact ⟨communityAgree_connect h.1 hnone uid, threadAgree_connect h.2 hnone uid⟩
  | join_community ws c =>
    obtain ⟨md0, hmd0⟩ : ∃ md0, dlookup ws st.connection_metadata = some md0 := by
      simp only [okOp, dmem] at hok
      exact Option.isSome_iff_exists.mp hok
    exact ⟨communityAgree_join_community h.1 hmd0 c,
      threadAgree_join_community h.2 ws c⟩
  | leave_community ws c =>
    exact ⟨communityAgree_leave_community h.1 ws c,
      threadAgree_leave_community h.2 ws c⟩
  | join_thread ws t =>
    obtain ⟨md0, hmd0⟩ : ∃ md0, dlookup ws st.connection_metadata = some md0 := by
      simp only [okOp, dmem] at hok
      exact Option.isSome_iff_exists.mp hok
    exact ⟨communityAgree_join_thread h.1 ws t, threadAgree_join_thread h.2 hmd0 t⟩
  | leave_thread ws t =>
    exact ⟨communityAgree_leave_thread h.1 ws t, threadAgree_leave_thread h.2 ws t⟩
  | disconnect ws =>
    exact ⟨communityAgree_disconnect h.1 ws, threadAgree_disconnect h.2 ws⟩

/-- The empty registry satisfies the invariant. -/
theorem topicAgree_initManager : topicAgree initManager := by
  constructor <;> intro k w <;> simp [initManager, memIndex, dlookup]

/-- A well-formed run from an invariant state ends in an invariant state. -/
theorem topicAgree_foldl {st : ManagerState} {ops : List Op} (h : topicAgree st)
    (hok : okRun st ops = true) : topicAgree (ops.foldl applyOp st) := by
  induction ops generalizing st with
  | nil => exact h
  | cons op rest ih =>
    simp only [okRun, Bool.and_eq_true] at hok
    exact ih (topicAgree_applyOp h hok.1) hok.2

/-! ### Further helper lemmas -/

/-- `disconnect` of a handle with no tracking state is the identity. -/
theorem disconnect_not_registered {st : ManagerState} {ws : Nat}
    (h0 : dlookup ws st.connection_metadata = none) : disconnect st ws = st := by
  simp [disconnect, h0]

/-- After `disconnect ws` the handle has no tracking state. -/
theorem meta_disconnect_self (st : ManagerState) (ws : Nat) :
    dlookup ws (disconnect st ws).connection_metadata = none := by
  cases h0 : dlookup ws st.connection_metadata with
  | none => simp [disconnect, h0]
  | some md0 => simp [disconnect, h0, dlookup_derase_self]

/-- `disconnect ws` does not touch the tracking state of other handles. -/
theorem meta_disconnect_ne {ws w : Nat} (h : w ≠ ws) (st : ManagerState) :
    dlookup w (disconnect st ws).connection_metadata
      = dlookup w st.connection_metadata := by
  cases h0 : dlookup ws st.connection_metadata with
  | none => simp [disconnect, h0]
  | some md0 => simp [disconnect, h0, dlookup_derase_ne h]

/-- Disconnecting a list of handles does not touch the tracking state of a
handle outside the list. -/
theorem meta_foldl_disconnect_ne {L : List Nat} {w : Nat} (h : w ∉ L)
    (st : ManagerState) :
    dlookup w (L.foldl disconnect st).connection_metadata
      = dlookup w st.connection_metadata := by
  induction L generalizing st with
  | nil => rfl
  | cons x L ih =>
    simp only [List.mem_cons, not_or] at h
    rw [List.foldl_cons, ih h.2, meta_disconnect_ne h.1]

/-- The fan-out pass separates the snapshot into successful and failing
handles, each in iteration order. -/
theorem fanout_eq (fail : Nat → Bool) (conns : List Nat) :
    fanout fail conns
      = (conns.filter (fun w => !(fail w)), conns.filter fail) := by
  induction conns with
  | nil => rfl
  | cons w rest ih =>
    cases hf : fail w <;> simp [fanout, ih, List.filter, hf]

/-! ## The claims -/

/-- C1, as stated, is refuted: `join_community` on a handle that was never
registered adds it to the community index entry while the handle has no
membership set at all, so the bidirectional topic-index/membership-set
agreement fails after the one-operation sequence
`[join_community 1 "c"]`. -/
theorem claim_C1_counterexample :
    ¬ topicAgree (runOps [Op.join_community 1 "c"]) := by
  rintro ⟨hC, _⟩
  have hmem : memIndex (runOps [Op.join_community 1 "c"]).community_connections
      "c" 1 = true := by decide
  obtain ⟨md, hmd, _⟩ := (hC "c" 1).mp hmem
  exact Option.noConfusion hmd

/-- C1 (amended): the topic-index/membership-set agreement - a connection
handle appears in the community (resp. thread) index entry for key `K` iff
`K` is in that handle's metadata `communities` (resp. `threads`) set - holds
after every sequence of connect / join / leave / disconnect operations from
the empty registry, provided `connect` is only invoked on handles without
tracking state and `join_community` / `join_thread` only on registered
handles (leaves and disconnects are unrestricted). -/
theorem claim_C1_amended (ops : List Op) (h : okRun initManager ops = true) :
    topicAgree (runOps ops) :=
  topicAgree_foldl topicAgree_initManager h

/-- Witness for C1: a concrete well-formed run. -/
theorem claim_C1_amended_witness :
    okRun initManager
        [Op.connect 1 "alice", Op.connect 2 "bob", Op.join_community 1 "c",
         Op.join_community 2 "c", Op.join_thread 1 "t", Op.leave_community 1 "c",
         Op.disconnect 2] = true ∧
      topicAgree (runOps
        [Op.connect 1 "alice", Op.connect 2 "bob", Op.join_community 1 "c",
         Op.join_community 2 "c", Op.join_thread 1 "t", Op.leave_community 1 "c",
         Op.disconnect 2]) :=
  ⟨by decide, claim_C1_amended _ (by decide)⟩

/-- A small agreement-satisfying state used as the C9 witness: one
connection registered and joined to community "c" and thread "t". -/
def st9 : ManagerState :=
  runOps [Op.connect 1 "a", Op.join_community 1 "c", Op.join_thread 1 "t"]

/-- C9, as stated, is refuted: after `join_community` on the not-yet
registered handle 1 followed by `connect`, the handle is registered, yet
`disconnect` leaves it inside the community index entry `"c"` (its freshly
reset metadata no longer lists the community), so unregister is not
complete for every reachable registered connection. -/
theorem claim_C9_counterexample :
    dmem 1 (runOps [Op.join_community 1 "c", Op.connect 1 "u"]).connection_metadata
        = true ∧
      memIndex (disconnect (runOps [Op.join_community 1 "c", Op.connect 1 "u"]) 1).community_connections
        "c" 1 = true := by
  decide

/-- C9 (amended): on any registry state satisfying the topic agreement
invariant (in particular any state produced by a well-formed run, cf. C1),
`disconnect` removes the handle from every community index entry, every
thread index entry, and removes the identity-index entry for the handle's
own user id; a second `disconnect` of the same handle - or a `disconnect`
of a handle that was never registered - leaves the state unchanged, so
`disconnect` composed with itself equals a single `disconnect`. -/
theorem claim_C9_amended (st : ManagerState) (w : Nat) (h : topicAgree st) :
    disconnect (disconnect st w) w = disconnect st w ∧
    (dlookup w st.connection_metadata = none → disconnect st w = st) ∧
    (∀ c, memIndex (disconnect st w).community_connections c w = false) ∧
    (∀ t, memIndex (disconnect st w).thread_connections t w = false) ∧
    (∀ md, dlookup w st.connection_metadata = some md →
      dlookup md.user_id (disconnect st w).user_connections = none) := by
  refine ⟨disconnect_not_registered (meta_disconnect_self st w),
    fun h0 => disconnect_not_registered h0, ?_, ?_, ?_⟩
  · intro c
    cases hb : memIndex (disconnect st w).community_connections c w with
    | false => rfl
    | true =>
      obtain ⟨md, hmd, _⟩ := (communityAgree_disconnect h.1 w c w).mp hb
      rw [meta_disconnect_self] at hmd
      exact Option.noConfusion hmd
  · intro t
    cases hb : memIndex (disconnect st w).thread_connections t w with
    | false => rfl
    | true =>
      obtain ⟨md, hmd, _⟩ := (threadAgree_disconnect h.2 w t w).mp hb
      rw [meta_disconnect_self] at hmd
      exact Option.noConfusion hmd
  · intro md hmd
    simp only [disconnect, hmd]
    by_cases hm : dmem md.user_id st.user_connections = true
    · simp [hm, dlookup_derase_self]
    · simp only [Bool.not_eq_true] at hm
      simp only [hm, Bool.false_eq_true, if_false]
      exact Option.not_isSome_iff_eq_none.mp (by simp [dmem] at hm; simp [hm])

/-- Witness for C9 at the concrete state `st9` and handle 1. -/
theorem claim_C9_amended_witness :
    topicAgree st9 ∧
      (disconnect (disconnect st9 1) 1 = disconnect st9 1 ∧
      (dlookup 1 st9.connection_metadata = none → disconnect st9 1 = st9) ∧
      (∀ c, memIndex (disconnect st9 1).community_connections c 1 = false) ∧
      (∀ t, memIndex (disconnect st9 1).thread_connections t 1 = false) ∧
      (∀ md, dlookup 1 st9.connection_metadata = some md →
        dlookup md.user_id (disconnect st9 1).user_connections = none)) :=
  ⟨topicAgree_of_topicAgreeB (by decide),
   claim_C9_amended st9 1 (topicAgree_of_topicAgreeB (by decide))⟩

/-- The stale-identity scenario of C10: `connect w1 u`, then `connect w2 u`,
then `disconnect w1`, from the empty registry. -/
def staleState (w1 w2 : Nat) (u : String) : ManagerState :=
  runOps [Op.connect w1 u, Op.connect w2 u, Op.disconnect w1]

/-- C10 (confirmed): after `connect w1 u`, `connect w2 u` (distinct
handles), `disconnect w1`, the identity index holds no entry for `u` -
`disconnect` deletes the identity entry for its user id without checking
that it still maps to the handle being disconnected - so a subsequent
`send_personal_message u` delivers nothing and leaves the state unchanged,
even though `w2` is still registered and its metadata still names `u`. -/
theorem claim_C10 (w1 w2 : Nat) (u : String) (hne : w1 ≠ w2)
    (fail : Nat → Bool) :
    dlookup u (staleState w1 w2 u).user_connections = none ∧
    send_personal_message (staleState w1 w2 u) u fail
      = ⟨staleState w1 w2 u, [], none⟩ ∧
    dlookup w2 (staleState w1 w2 u).connection_metadata
      = some { user_id := u, communities := [], threads := [] } := by
  have h21 : w2 ≠ w1 := fun h => hne h.symm
  have hrun : staleState w1 w2 u
      = disconnect (connect (connect initManager w1 u) w2 u) w1 := rfl
  have hm1 : dlookup w1 (connect (connect initManager w1 u) w2 u).connection_metadata
      = some { user_id := u, communities := [], threads := [] } := by
    simp only [connect, initManager]
    rw [dlookup_dinsert_ne hne, dlookup_dinsert_self]
  have huser : dlookup u (staleState w1 w2 u).user_connections = none := by
    rw [hrun]
    simp only [disconnect, hm1]
    have hdm : dmem u (connect (connect initManager w1 u) w2 u).user_connections
        = true := by
      simp [dmem, connect, dlookup_dinsert_self]
    simp [hdm, dlookup_derase_self]
  refine ⟨huser, by simp [send_personal_message, huser], ?_⟩
  rw [hrun]
  simp only [disconnect, hm1]
  rw [dlookup_derase_ne h21]
  simp [connect, dlookup_dinsert_self]

/-- Witness for C10 on concrete handles and identity. -/
theorem claim_C10_witness :
    (1 : Nat) ≠ 2 ∧
      (dlookup "alice" (staleState 1 2 "alice").user_connections = none ∧
      send_personal_message (staleState 1 2 "alice") "alice" (fun _ => false)
        = ⟨staleState 1 2 "alice", [], none⟩ ∧
      dlookup 2 (staleState 1 2 "alice").connection_metadata
        = some { user_id := "alice", communities := [], threads := [] }) :=
  ⟨by decide, claim_C10 1 2 "alice" (by decide) (fun _ => false)⟩

/-- C5, as stated, is refuted: `connect` performs no duplicate check and
never fails.  Handle 1 is already registered (and joined to community "c"),
yet a second `connect` succeeds and silently installs fresh tracking state
with empty topic sets, instead of raising a fatal error. -/
theorem claim_C5_counterexample :
    dmem 1 (join_community (connect initManager 1 "u") 1 "c").connection_metadata
        = true ∧
      dlookup 1 (connect (join_community (connect initManager 1 "u") 1 "c") 1 "u").connection_metadata
        = some { user_id := "u", communities := [], threads := [] } := by
  decide

/-- C5 (amended): `connect` never fails: for every state - whether or not
the handle is already registered - it succeeds, installing fresh tracking
state (empty topic sets) for the handle and making the identity index map
the user id to it.  Duplicate registration is silently tolerated (the old
tracking state is overwritten), not a fatal error. -/
theorem claim_C5_amended (st : ManagerState) (ws : Nat) (uid : String) :
    dlookup ws (connect st ws uid).connection_metadata
      = some { user_id := uid, communities := [], threads := [] } ∧
    dlookup uid (connect st ws uid).user_connections = some ws := by
  simp [connect, dlookup_dinsert_self]

/-- C6, as stated, is refuted: `send_personal_message` has no `return`
statement, so it returns `None` on every path.  Here "alice" has an active
connection and the message is delivered to it, yet the returned value is
`None`, not `True`; and for the unknown identity "bob" it is `None`, not
`False`. -/
theorem claim_C6_counterexample :
    (send_personal_message (connect initManager 1 "alice") "alice"
        (fun _ => false)).delivered = [1] ∧
      (send_personal_message (connect initManager 1 "alice") "alice"
        (fun _ => false)).ret ≠ some true ∧
      (send_personal_message (connect initManager 1 "alice") "bob"
        (fun _ => false)).ret ≠ some false := by
  decide

/-- C6 (amended): the direct-send operation is best-effort - when the
identity has no active connection it does nothing, and when it has one
whose send succeeds it delivers the event to exactly that connection - but
it always returns `None`, never a boolean status. -/
theorem claim_C6_amended (st : ManagerState) (uid : String) (fail : Nat → Bool) :
    (send_personal_message st uid fail).ret = none ∧
    (dlookup uid st.user_connections = none →
      send_personal_message st uid fail = ⟨st, [], none⟩) ∧
    (∀ ws, dlookup uid st.user_connections = some ws → fail ws = false →
      (send_personal_message st uid fail).delivered = [ws] ∧
      (send_personal_message st uid fail).state = st) := by
  refine ⟨?_, ?_, ?_⟩
  · unfold send_personal_message
    cases h : dlookup uid st.user_connections with
    | none => rfl
    | some ws => by_cases hf : fail ws = true <;> simp [hf]
  · intro h0
    simp [send_personal_message, h0]
  · intro ws hws hf
    simp [send_personal_message, hws, hf]

/-- Witness for C6 on a concrete registered identity. -/
theorem claim_C6_amended_witness :
    (send_personal_message (connect initManager 1 "alice") "alice"
        (fun _ => false)).ret = none ∧
    (dlookup "alice" (connect initManager 1 "alice").user_connections = none →
      send_personal_message (connect initManager 1 "alice") "alice" (fun _ => false)
        = ⟨connect initManager 1 "alice", [], none⟩) ∧
    (∀ ws, dlookup "alice" (connect initManager 1 "alice").user_connections = some ws →
      (fun _ => false : Nat → Bool) ws = false →
      (send_personal_message (connect initManager 1 "alice") "alice"
        (fun _ => false)).delivered = [ws] ∧
      (send_personal_message (connect initManager 1 "alice") "alice"
        (fun _ => false)).state = connect initManager 1 "alice") :=
  claim_C6_amended (connect initManager 1 "alice") "alice" (fun _ => false)

/-- A control message whose action is recognized by no branch of the
dispatch. -/
def frobMsg : WsMessage :=
  { action := some "frobnicate", community_id := none, thread_id := none,
    user_id := none }

/-- The `typing` control message for thread "42" sent by user "alice". -/
def typingMsg : WsMessage :=
  { action := some "typing", community_id := none, thread_id := some "42",
    user_id := some "alice" }

/-- Partial-failure isolation of a broadcast, relative to the snapshot it
fanned out over: the delivered handles are exactly the snapshot members
whose send succeeded (in snapshot order); the final state is the pre-pass
state with `disconnect` folded over the failing snapshot members only -
i.e. the failures are unregistered after the pass, from the snapshot state;
every non-failing snapshot member is delivered to; and every registered
handle that is not a failing snapshot member stays registered. -/
def broadcastIsolated (st : ManagerState) (fail : Nat → Bool)
    (snapshot : List Nat) (result : ManagerState × List Nat) : Prop :=
  result.2 = snapshot.filter (fun w => !(fail w)) ∧
  result.1 = (snapshot.filter fail).foldl disconnect st ∧
  (∀ w, w ∈ snapshot → fail w = false → w ∈ result.2) ∧
  (∀ w, dmem w st.connection_metadata = true → w ∉ snapshot.filter fail →
    dmem w result.1.connection_metadata = true)

theorem broadcast_pass_isolated (st : ManagerState) (fail : Nat → Bool)
    (conns : List Nat) :
    broadcastIsolated st fail conns
      ((conns.filter fail).foldl disconnect st,
        conns.filter (fun w => !(fail w))) := by
  refine ⟨rfl, rfl, ?_, ?_⟩
  · intro w hw hf
    simp [List.mem_filter, hw, hf]
  · intro w hw hnot
    unfold dmem
    rw [meta_foldl_disconnect_ne hnot]
    exact hw

/-- C3 (confirmed): for every broadcast to a community topic, a thread
topic, or to all connections, the fan-out proceeds over the snapshot taken
at call time; a failing send never aborts delivery to the remaining
snapshot members; the failing handles are collected during the pass and
`disconnect`ed only after it (folded over the pre-pass state, never while
the set is being iterated); and only the failing snapshot members are
unregistered. -/
theorem claim_C3 (st : ManagerState) (c t : String) (fail : Nat → Bool)
    (cc tc : List Nat)
    (hc : dlookup c st.community_connections = some cc)
    (ht : dlookup t st.thread_connections = some tc) :
    broadcastIsolated st fail cc (broadcast_to_community st c fail) ∧
    broadcastIsolated st fail tc (broadcast_to_thread st t fail) ∧
    broadcastIsolated st fail (st.connection_metadata.map Prod.fst)
      (broadcast_to_all st fail) := by
  have h1 : broadcast_to_community st c fail
      = ((cc.filter fail).foldl disconnect st,
          cc.filter (fun w => !(fail w))) := by
    simp [broadcast_to_community, hc, fanout_eq]
  have h2 : broadcast_to_thread st t fail
      = ((tc.filter fail).foldl disconnect st,
          tc.filter (fun w => !(fail w))) := by
    simp [broadcast_to_thread, ht, fanout_eq]
  have h3 : broadcast_to_all st fail
      = (((st.connection_metadata.map Prod.fst).filter fail).foldl disconnect st,
          (st.connection_metadata.map Prod.fst).filter (fun w => !(fail w))) := by
    simp [broadcast_to_all, fanout_eq]
  rw [h1, h2, h3]
  exact ⟨broadcast_pass_isolated st fail cc, broadcast_pass_isolated st fail tc,
    broadcast_pass_isolated st fail _⟩

/-- A state for the C3 witness: handles 1 and 2 both in community "c" and
thread "t"; the send to handle 2 fails. -/
def st3w : ManagerState :=
  runOps [Op.connect 1 "a", Op.connect 2 "b", Op.join_community 1 "c",
    Op.join_community 2 "c", Op.join_thread 1 "t", Op.join_thread 2 "t"]

/-- Witness for C3 at `st3w` with handle 2 failing. -/
theorem claim_C3_witness :
    dlookup "c" st3w.community_connections = some [2, 1] ∧
    dlookup "t" st3w.thread_connections = some [2, 1] ∧
    (broadcastIsolated st3w (fun w => decide (w = 2)) [2, 1]
        (broadcast_to_community st3w "c" (fun w => decide (w = 2))) ∧
      broadcastIsolated st3w (fun w => decide (w = 2)) [2, 1]
        (broadcast_to_thread st3w "t" (fun w => decide (w = 2))) ∧
      broadcastIsolated st3w (fun w => decide (w = 2))
        (st3w.connection_metadata.map Prod.fst)
        (broadcast_to_all st3w (fun w => decide (w = 2)))) :=
  ⟨by decide, by decide,
   claim_C3 st3w "c" "t" (fun w => decide (w = 2)) [2, 1] [2, 1]
     (by decide) (by decide)⟩

/-- C7, as stated, is refuted: a parsed control message with the
unrecognized action `"frobnicate"` falls through `handle_websocket_message`
silently - no `error`-typed reply frame is sent (the reply list is empty);
only the registry-unchanged part of the claim holds. -/
theorem claim_C7_counterexample :
    route_message initManager 1
        (Inbound.parsed frobMsg) "ts" (fun _ => false)
      = (initManager, []) := by
  decide

/-- C7 (amended): an inbound frame that fails to parse as JSON gets an
`error`-typed `Invalid JSON format` reply on the same connection with the
registry unchanged; a parsed message whose action is not one of the six
recognized actions is silently ignored - no reply at all is sent and the
registry is unchanged (the connection stays open in both cases). -/
theorem claim_C7_amended (st : ManagerState) (ws : Nat) (m : WsMessage)
    (now : String) (fail : Nat → Bool)
    (h : m.action ∉ ([some "join_community", some "leave_community",
      some "join_thread", some "leave_thread", some "typing",
      some "stop_typing"] : List (Option String))) :
    route_message st ws Inbound.badJson now fail
      = (st, [(ws, Frame.errorReply "Invalid JSON format")]) ∧
    route_message st ws (Inbound.parsed m) now fail = (st, []) := by
  refine ⟨rfl, ?_⟩
  simp only [List.mem_cons, List.not_mem_nil, or_false, not_or] at h
  obtain ⟨h1, h2, h3, h4, h5, h6⟩ := h
  simp [route_message, handle_websocket_message, h1, h2, h3, h4, h5, h6]

/-- Witness for C7 on the unknown action `"frobnicate"`. -/
theorem claim_C7_amended_witness :
    frobMsg.action
      ∉ ([some "join_community", some "leave_community", some "join_thread",
          some "leave_thread", some "typing", some "stop_typing"] :
          List (Option String)) ∧
    (route_message initManager 7 Inbound.badJson "ts" (fun _ => false)
        = (initManager, [(7, Frame.errorReply "Invalid JSON format")]) ∧
      route_message initManager 7
        (Inbound.parsed frobMsg) "ts" (fun _ => false)
        = (initManager, [])) :=
  ⟨by decide,
   claim_C7_amended initManager 7 frobMsg "ts" (fun _ => false) (by decide)⟩

/-- The C8 scenario state: handles 1 ("alice") and 2 ("bob") both joined to
thread "42". -/
def st8 : ManagerState :=
  runOps [Op.connect 1 "alice", Op.connect 2 "bob", Op.join_thread 1 "42",
    Op.join_thread 2 "42"]

/-- C8, as stated, is refuted: `typing` is re-broadcast via
`broadcast_to_thread`, which sends to every member of the thread including
the sender, so handle 1 receives its own typing frame back. -/
theorem claim_C8_counterexample :
    (1, Frame.typing "42" "alice" "T0") ∈
      (handle_websocket_message st8 1
        typingMsg "T0" (fun _ => false)).2 := by
  decide

/-- C8 (amended): when handles 1 and 2 are both members of thread "42" and
handle 1 sends `typing` for it, handle 2 receives a `typing` frame carrying
the thread id "42" and the server-stamped timestamp `now` - and handle 1
also receives the same frame back (echo-back is included); the registry
state is unchanged. -/
theorem claim_C8_amended (now : String) :
    handle_websocket_message st8 1
        typingMsg now (fun _ => false)
      = (st8, [(2, Frame.typing "42" "alice" now),
               (1, Frame.typing "42" "alice" now)]) := by
  rfl

/-- C2 is a code bug: `RedisBroker.subscribe` issues an exact-channel
subscription and `listen` dispatches by exact dictionary lookup of the
incoming channel, so the Gateway's subscriptions under the literal strings
`community:*`, `thread:*`, `global:*` never match an event published on a
concrete topic such as `community:123` - the handler is invoked zero times,
not exactly once.  Only an event published on the literal channel
`community:*` itself would reach the handler (second conjunct). -/
theorem claim_C2_failing :
    listen_to_redis [StreamItem.message "message" "community:123" "payload" false]
        = ([], false) ∧
      listen_to_redis [StreamItem.message "message" "community:*" "payload" false]
        = ([(0, "community:*", "payload")], false) := by
  decide

/-- C4, as stated, is refuted: a transport error raised by the pubsub
iteration is caught by `listen`'s outer `except`, logged, and the function
returns - the rest of the stream is never processed (first conjunct), even
though the very same message would have invoked the handler had the error
not occurred (second conjunct); `listen_to_redis` never restarts it. -/
theorem claim_C4_counterexample :
    listen_to_redis [StreamItem.transportError,
        StreamItem.message "message" "global:*" "x" false] = ([], true) ∧
      listen_to_redis [StreamItem.message "message" "global:*" "x" false]
        = ([(0, "global:*", "x")], false) := by
  decide

/-- C4 (amended): the listen loop survives only per-callback errors: a
raising subscriber callback is swallowed by the inner `except` and the loop
continues identically; but a transport error terminates the loop
immediately - nothing further is processed and the loop is not retried -
and an exhausted stream ends the loop without the error flag. -/
theorem claim_C4_amended (subs : List (String × Nat)) (rest : List StreamItem)
    (mt ch d : String) :
    listenLoop subs (StreamItem.transportError :: rest) = ([], true) ∧
    (∀ b, listenLoop subs (StreamItem.message mt ch d b :: rest)
      = listenLoop subs (StreamItem.message mt ch d false :: rest)) ∧
    listenLoop subs [] = ([], false) :=
  ⟨rfl, fun _ => rfl, rfl⟩

end IffServices
